import Mathlib

/-
Verification development for the lexical diagnostic engine of the Rebuild
compiler front end: a shallow embedding of parser/LineErrorReporter.h and
nesting/Token.h over byte buffers modelled as lists of natural numbers
(each byte accessed modulo 256).  Views are half-open index ranges into
one buffer, which also models the pointer identity and pointer comparison
used by the C++ code.  The mutable isTainted flags are modelled by
explicit state passing: each reporter returns the diagnostics it emitted
together with the updated insignificants list.
-/

namespace REC

/-- A byte view: half-open window into the source buffer, b is the index of
the first byte and e the index one past the last byte. -/
structure View where
  b : Nat
  e : Nat
deriving DecidableEq

/-- Read one byte of the buffer, out-of-range reads give 0, as a byte. -/
def byteAt (buf : List Nat) (i : Nat) : Nat := (buf.getD i 0) % 256

/-- The bytes of buf in the half-open range from b to e. -/
def sub (buf : List Nat) (b e : Nat) : List Nat :=
  ((buf.drop b).take (e - b)).map (fun x => x % 256)

/-- The bytes that a view denotes. -/
def bytesOf (buf : List Nat) (v : View) : List Nat := sub buf v.b v.e

/-- View::isPartOf: pure pointer-range containment. -/
def View.isPartOf (v w : View) : Bool := decide (w.b ≤ v.b) && decide (v.e ≤ w.e)

/-- An item produced by the UTF-8 decoder, carrying the view of the bytes
it consumed; cp is the decoded Unicode scalar value. -/
inductive DecodedItem where
  | codePoint (input : View) (cp : Nat)
  | error (input : View)
deriving DecidableEq

/-- A continuation byte of a multi-byte UTF-8 sequence. -/
def utf8Cont (b : Nat) : Bool := decide (128 ≤ b) && decide (b < 192)

/-- Modelled from the spec: the UTF-8 decoder of the strings layer
(strings/utf8Decode.h, not under src/).  Per the external-interface
contract it yields a sequence of DecodedItems in order, each carrying an
input view exactly covering the bytes it consumed, and a DecodedError for
any sequence that is not a valid UTF-8 scalar.  On a malformed or
truncated sequence only the offending lead byte is consumed as the error.
The first argument is fuel, at least the number of remaining bytes. -/
def utf8DecodeAux (buf : List Nat) (e : Nat) : Nat → Nat → List DecodedItem
  | 0, _ => []
  | fuel+1, p =>
    if p < e then
      let c := byteAt buf p
      if c < 128 then
        DecodedItem.codePoint ⟨p, p+1⟩ c :: utf8DecodeAux buf e fuel (p+1)
      else if c < 194 then
        DecodedItem.error ⟨p, p+1⟩ :: utf8DecodeAux buf e fuel (p+1)
      else if c < 224 then
        if decide (p+1 < e) && utf8Cont (byteAt buf (p+1)) then
          DecodedItem.codePoint ⟨p, p+2⟩ ((c - 192) * 64 + (byteAt buf (p+1) - 128))
            :: utf8DecodeAux buf e fuel (p+2)
        else DecodedItem.error ⟨p, p+1⟩ :: utf8DecodeAux buf e fuel (p+1)
      else if c < 240 then
        if decide (p+2 < e) && utf8Cont (byteAt buf (p+1)) && utf8Cont (byteAt buf (p+2)) then
          DecodedItem.codePoint ⟨p, p+3⟩
            ((c - 224) * 4096 + (byteAt buf (p+1) - 128) * 64 + (byteAt buf (p+2) - 128))
            :: utf8DecodeAux buf e fuel (p+3)
        else DecodedItem.error ⟨p, p+1⟩ :: utf8DecodeAux buf e fuel (p+1)
      else if c < 248 then
        if decide (p+3 < e) && utf8Cont (byteAt buf (p+1)) && utf8Cont (byteAt buf (p+2))
            && utf8Cont (byteAt buf (p+3)) then
          DecodedItem.codePoint ⟨p, p+4⟩
            ((c - 240) * 262144 + (byteAt buf (p+1) - 128) * 4096
              + (byteAt buf (p+2) - 128) * 64 + (byteAt buf (p+3) - 128))
            :: utf8DecodeAux buf e fuel (p+4)
        else DecodedItem.error ⟨p, p+1⟩ :: utf8DecodeAux buf e fuel (p+1)
      else
        DecodedItem.error ⟨p, p+1⟩ :: utf8DecodeAux buf e fuel (p+1)
    else []

/-- Decode the bytes of a view. -/
def utf8Decode (buf : List Nat) (v : View) : List DecodedItem :=
  utf8DecodeAux buf v.e (v.e - v.b) v.b

/-- Modelled from the spec: CodePoint::isControl of the strings layer
(strings/code_point.h, not under src/): C0 and C1 control characters. -/
def isControl (cp : Nat) : Bool :=
  decide (cp < 32) || (decide (127 ≤ cp) && decide (cp < 160))

/-- Modelled from the spec: CodePoint::isSurrogate. -/
def isSurrogate (cp : Nat) : Bool := decide (55296 ≤ cp) && decide (cp < 57344)

/-- Modelled from the spec: CodePoint::isNonCharacter. -/
def isNonCharacter (cp : Nat) : Bool :=
  (decide (64976 ≤ cp) && decide (cp ≤ 65007))
    || decide (cp % 65536 = 65534) || decide (cp % 65536 = 65535)

/-- Modelled from the spec: CodePoint::isCombiningMark, the main Unicode
combining-mark blocks. -/
def isCombiningMark (cp : Nat) : Bool :=
  (decide (768 ≤ cp) && decide (cp ≤ 879))
    || (decide (6832 ≤ cp) && decide (cp ≤ 6911))
    || (decide (7616 ≤ cp) && decide (cp ≤ 7679))
    || (decide (8400 ≤ cp) && decide (cp ≤ 8447))
    || (decide (65056 ≤ cp) && decide (cp ≤ 65071))

/-- A text span in bytes into a rendered line; -1 is the sentinel used
while a marker has not been observed yet (TextSpan has i32 fields). -/
structure TextSpan where
  start : Int
  length : Int
deriving DecidableEq

/-- Lowercase hexadecimal digit character code. -/
def hexDigit (n : Nat) : Nat := if n < 10 then 48 + n else 87 + n

/-- The characters std::hex prints for a byte value masked with 255:
unpadded lowercase hexadecimal, hence one digit for values below 16. -/
def hexByte (x : Nat) : List Nat :=
  let n := x % 256
  if n < 16 then [hexDigit n] else [hexDigit (n / 16), hexDigit (n % 16)]

/-- The escape string addEscaped builds for the bytes of one decoded item:
92 is backslash, 91 and 93 are the square brackets. -/
def escapedStr (bytes : List Nat) : List Nat :=
  match bytes with
  | [x] =>
    if x = 10 then [92, 110, 10]
    else if x = 13 then [92, 114]
    else if x = 9 then [92, 116]
    else if x = 0 then [92, 48]
    else [92, 91] ++ hexByte x ++ [93]
  | xs => [92, 91] ++ (xs.map hexByte).flatten ++ [93]

/-- The state of the escapeSourceLine loop: the rope output, the span list,
the next unflushed input byte and the output column offset. -/
structure EscState where
  out : List Nat
  markers : List TextSpan
  beg : Nat
  offset : Int
  requiresEscapes : Bool
deriving DecidableEq

/-- updateMarkers of escapeSourceLine at input position p: start a span
when its marker has begun, close it when its marker has ended. -/
def updMarkers (vms : List View) (p : Nat) (offset : Int) (ms : List TextSpan) : List TextSpan :=
  (vms.zip ms).map fun vmm =>
    let vm := vmm.1
    let m := vmm.2
    let m1 := if vm.b ≤ p ∧ m.start = -1 then TextSpan.mk offset m.length else m
    if vm.e ≤ p ∧ m1.length = -1 then TextSpan.mk m1.start (offset - m1.start) else m1

/-- addEscaped of escapeSourceLine: flush the pass-through bytes before the
item, append the escape string, and advance; every escape except the
single linefeed byte sets requiresEscapes. -/
def addEscaped (buf : List Nat) (st : EscState) (input : View) : EscState :=
  let str := escapedStr (bytesOf buf input)
  { out := st.out ++ sub buf st.beg input.b ++ str
    markers := st.markers
    beg := input.e
    offset := st.offset + str.length
    requiresEscapes := st.requiresEscapes || !(decide (bytesOf buf input = [10])) }

/-- One decoded item of the escapeSourceLine loop: escape combining marks,
controls, non-characters, surrogates and decode errors, double a
backslash (code point 92), and count one column for any other scalar. -/
def escStep (buf : List Nat) (vms : List View) (st : EscState) (item : DecodedItem) : EscState :=
  match item with
  | DecodedItem.codePoint input cp =>
    let st := { st with markers := updMarkers vms input.b st.offset st.markers }
    if isCombiningMark cp || isControl cp || isNonCharacter cp || isSurrogate cp then
      addEscaped buf st input
    else if cp = 92 then
      { st with
        out := st.out ++ sub buf st.beg input.e ++ [92]
        beg := input.e
        offset := st.offset + 2 }
    else { st with offset := st.offset + 1 }
  | DecodedItem.error input =>
    let st := { st with markers := updMarkers vms input.b st.offset st.markers }
    addEscaped buf st input

/-- The fast-path span recomputation of escapeSourceLine.  The C++ loop
declares an index i that is never incremented, so every iteration writes
markers[0]; the net effect is that only the first span is overwritten,
with the start and byte count of the last view marker. -/
def fastPathMarkers (view : View) (vms : List View) (ms : List TextSpan) : List TextSpan :=
  match vms.getLast? with
  | none => ms
  | some vm => ms.set 0 (TextSpan.mk ((vm.b : Int) - (view.b : Int)) ((vm.e : Int) - (vm.b : Int)))

/-- The result of escapeSourceLine: rendered bytes plus one span per
view marker. -/
structure EscapedMarkers where
  escaped : List Nat
  markers : List TextSpan
deriving DecidableEq

/-- escapeSourceLine: stream the view through the UTF-8 decoder, escape
what needs escaping while tracking the marker spans, and fall back to the
raw view when no escape set requiresEscapes. -/
def escapeSourceLine (buf : List Nat) (view : View) (vms : List View) : EscapedMarkers :=
  let st0 : EscState := ⟨[], vms.map fun _ => TextSpan.mk (-1) (-1), view.b, 0, false⟩
  let st := (utf8Decode buf view).foldl (escStep buf vms) st0
  let outAll := st.out ++ sub buf st.beg view.e
  let ms := updMarkers vms view.e st.offset st.markers
  if st.requiresEscapes then ⟨outAll, ms⟩
  else ⟨sub buf view.b view.e, fastPathMarkers view vms ms⟩

/-- scanner::StringError::Kind, in declaration order. -/
inductive StringErrorKind where
  | endOfInput
  | invalidEncoding
  | invalidEscape
  | invalidControl
  | invalidDecimalUnicode
  | invalidHexUnicode
deriving DecidableEq

/-- scanner::StringError: a kind together with the offending input view. -/
structure StringError where
  kind : StringErrorKind
  input : View
deriving DecidableEq

/-- scanner NewLineIndentation error alternatives. -/
inductive NewlineError where
  | decodedErrorPosition (input : View)
  | mixedIndentCharacter (input : View)
deriving DecidableEq

/-- Whether a newline error is a DecodedErrorPosition. -/
def NewlineError.isDecoded : NewlineError → Bool
  | NewlineError.decodedErrorPosition _ => true
  | NewlineError.mixedIndentCharacter _ => false

/-- The input view of a DecodedErrorPosition newline error. -/
def NewlineError.depInput : NewlineError → Option View
  | NewlineError.decodedErrorPosition v => some v
  | NewlineError.mixedIndentCharacter _ => none

/-- The input view of a MixedIndentCharacter newline error. -/
def NewlineError.micInput : NewlineError → Option View
  | NewlineError.decodedErrorPosition _ => none
  | NewlineError.mixedIndentCharacter v => some v

/-- scanner NumberLiteral error alternatives, in declaration order. -/
inductive NumberError where
  | decodedErrorPosition (input : View)
  | numberMissingExponent (input : View)
  | numberMissingValue (input : View)
  | numberMissingBoundary (input : View)
deriving DecidableEq

/-- The variant index of a number literal error. -/
def NumberError.idx : NumberError → Nat
  | NumberError.decodedErrorPosition _ => 0
  | NumberError.numberMissingExponent _ => 1
  | NumberError.numberMissingValue _ => 2
  | NumberError.numberMissingBoundary _ => 3

/-- The input view of a number literal error. -/
def NumberError.input : NumberError → View
  | NumberError.decodedErrorPosition v => v
  | NumberError.numberMissingExponent v => v
  | NumberError.numberMissingValue v => v
  | NumberError.numberMissingBoundary v => v

/-- scanner OperatorLiteral error alternatives, in declaration order. -/
inductive OperatorError where
  | decodedErrorPosition (input : View)
  | operatorWrongClose (input : View)
  | operatorUnexpectedClose (input : View)
  | operatorNotClosed (input : View)
deriving DecidableEq

/-- The variant index of an operator literal error. -/
def OperatorError.idx : OperatorError → Nat
  | OperatorError.decodedErrorPosition _ => 0
  | OperatorError.operatorWrongClose _ => 1
  | OperatorError.operatorUnexpectedClose _ => 2
  | OperatorError.operatorNotClosed _ => 3

/-- The input view of an operator literal error. -/
def OperatorError.input : OperatorError → View
  | OperatorError.decodedErrorPosition v => v
  | OperatorError.operatorWrongClose v => v
  | OperatorError.operatorUnexpectedClose v => v
  | OperatorError.operatorNotClosed v => v

/-- nesting::CommentLiteral: an insignificant that can carry decode
errors (only the fields the reporter reads are modelled). -/
structure CommentLit where
  input : View
  line : Nat
  decodeErrors : List View
  isTainted : Bool
deriving DecidableEq

/-- nesting::InvalidEncoding. -/
structure InvalidEnc where
  input : View
  line : Nat
  isTainted : Bool
deriving DecidableEq

/-- nesting::UnexpectedCharacter. -/
structure UnexpectedChar where
  input : View
  line : Nat
  isTainted : Bool
deriving DecidableEq

/-- nesting::NewLineIndentation with its typed error list. -/
structure NewLineIndent where
  input : View
  line : Nat
  errors : List NewlineError
  isTainted : Bool
deriving DecidableEq

/-- nesting::StringLiteral with its typed error list. -/
structure StringLit where
  input : View
  line : Nat
  errors : List StringError
  isTainted : Bool
deriving DecidableEq

/-- nesting::NumberLiteral with its typed error list. -/
structure NumberLit where
  input : View
  line : Nat
  errors : List NumberError
  isTainted : Bool
deriving DecidableEq

/-- nesting::OperatorLiteral with its typed error list. -/
structure OperatorLit where
  input : View
  line : Nat
  errors : List OperatorError
  isTainted : Bool
deriving DecidableEq

/-- nesting::IdentifierLiteral (a significant token) with its decode
error positions. -/
structure IdentifierLit where
  input : View
  line : Nat
  decodeErrors : List View
  isTainted : Bool
deriving DecidableEq

/-- nesting::Insignificant: exactly the alternatives of the variant in
nesting/Token.h.  Note that IdentifierLiteral is not among them, so the
IdentifierLiteral handler inside collectDecodeErrorMarkers can never
match an element of blockLine.insignificants. -/
inductive Insignificant where
  | commentLiteral (cl : CommentLit)
  | whiteSpaceSeparator (input : View)
  | invalidEncoding (ie : InvalidEnc)
  | unexpectedCharacter (uc : UnexpectedChar)
  | semicolonSeparator (input : View)
  | newLineIndentation (nli : NewLineIndent)
  | blockStartColon (input : View)
  | blockEndIdentifier (input : View)
  | unexpectedColon (input : View)
  | unexpectedIndent (input : View)
  | unexpectedTokensAfterEnd (input : View)
  | unexpectedBlockEnd (input : View)
  | missingBlockEnd (input : View)
  | misIndentedBlockEnd (input : View)
deriving DecidableEq

/-- The input view of an insignificant (visit of the input field). -/
def insigInput : Insignificant → View
  | Insignificant.commentLiteral cl => cl.input
  | Insignificant.whiteSpaceSeparator v => v
  | Insignificant.invalidEncoding ie => ie.input
  | Insignificant.unexpectedCharacter uc => uc.input
  | Insignificant.semicolonSeparator v => v
  | Insignificant.newLineIndentation nli => nli.input
  | Insignificant.blockStartColon v => v
  | Insignificant.blockEndIdentifier v => v
  | Insignificant.unexpectedColon v => v
  | Insignificant.unexpectedIndent v => v
  | Insignificant.unexpectedTokensAfterEnd v => v
  | Insignificant.unexpectedBlockEnd v => v
  | Insignificant.missingBlockEnd v => v
  | Insignificant.misIndentedBlockEnd v => v

/-- nesting::Token: the significant token variant (the nested lines of a
BlockLiteral are not modelled, no reporter reads them). -/
inductive Token where
  | blockLiteral (input : View)
  | colonSeparator (input : View)
  | commaSeparator (input : View)
  | squareBracketOpen (input : View)
  | squareBracketClose (input : View)
  | bracketOpen (input : View)
  | bracketClose (input : View)
  | stringLiteral (sl : StringLit)
  | numberLiteral (nl : NumberLit)
  | identifierLiteral (il : IdentifierLit)
  | operatorLiteral (ol : OperatorLit)
deriving DecidableEq

/-- The input view of a significant token. -/
def tokenInput : Token → View
  | Token.blockLiteral v => v
  | Token.colonSeparator v => v
  | Token.commaSeparator v => v
  | Token.squareBracketOpen v => v
  | Token.squareBracketClose v => v
  | Token.bracketOpen v => v
  | Token.bracketClose v => v
  | Token.stringLiteral sl => sl.input
  | Token.numberLiteral nl => nl.input
  | Token.identifierLiteral il => il.input
  | Token.operatorLiteral ol => ol.input

/-- nesting::BlockLine. -/
structure BlockLine where
  tokens : List Token
  insignificants : List Insignificant
deriving DecidableEq

/-- diagnostic::Highlight (a Marker with empty annotations). -/
structure Highlight where
  span : TextSpan
deriving DecidableEq

/-- diagnostic::SourceCodeBlock: rendered bytes, highlights, caption and
the first source line the block renders. -/
structure SourceCodeBlock where
  text : List Nat
  highlights : List Highlight
  caption : String
  originLine : Nat
deriving DecidableEq

/-- One part of a diagnostic document. -/
inductive DocPart where
  | paragraph (text : String)
  | sourceCodeBlock (scb : SourceCodeBlock)
deriving DecidableEq

/-- diagnostic::Explanation. -/
structure Explanation where
  heading : String
  document : List DocPart
deriving DecidableEq

/-- diagnostic::Code. -/
structure Code where
  category : String
  number : Nat
deriving DecidableEq

/-- diagnostic::Diagnostic. -/
structure Diagnostic where
  code : Code
  parts : List Explanation
deriving DecidableEq

/-- extractBlockLines: the smallest view covering all tokens and
insignificants of a block line; null iterators are modelled as none and
an empty block line gives the empty view at index 0. -/
def extractBlockLines (bl : BlockLine) : View :=
  let b0 : Option Nat := (bl.tokens.head?).map fun t => (tokenInput t).b
  let e0 : Option Nat := (bl.tokens.getLast?).map fun t => (tokenInput t).e
  let b1 : Option Nat :=
    match bl.insignificants.head? with
    | none => b0
    | some i =>
      match b0 with
      | none => some (insigInput i).b
      | some b => if (insigInput i).b < b then some (insigInput i).b else some b
  let e1 : Option Nat :=
    match bl.insignificants.getLast? with
    | none => e0
    | some i =>
      match e0 with
      | none => some (insigInput i).e
      | some e => if e < (insigInput i).e then some (insigInput i).e else some e
  ⟨b1.getD 0, e1.getD 0⟩

/-- The left widening loop of extractViewLines (fueled; the fuel is at
least b - lo). -/
def widenLeft (buf : List Nat) (lo : Nat) : Nat → Nat → Nat
  | 0, b => b
  | fuel+1, b =>
    if lo < b && !(decide (byteAt buf (b-1) = 13)) && !(decide (byteAt buf (b-1) = 10)) then
      widenLeft buf lo fuel (b-1)
    else b

/-- The right widening loop of extractViewLines (fueled; the fuel is at
least hi - e). -/
def widenRight (buf : List Nat) (hi : Nat) : Nat → Nat → Nat
  | 0, e => e
  | fuel+1, e =>
    if e < hi && !(decide (byteAt buf e = 13)) && !(decide (byteAt buf e = 10)) then
      widenRight buf hi fuel (e+1)
    else e

/-- extractViewLines: widen a view to the enclosing physical line
boundaries, never leaving the extent of the block line. -/
def extractViewLines (buf : List Nat) (bl : BlockLine) (v : View) : View :=
  let all := extractBlockLines bl
  ⟨widenLeft buf all.b v.b v.b, widenRight buf all.e (all.e - v.e) v.e⟩

/-- collectDecodeErrorMarkers, one insignificant: append the decode-error
views it carries when it is untainted and inside tokenLines, and taint it
unless it is the reporting carrier itself (tokRef is the index of the
reporting carrier inside insignificants, none for a significant token).
The source also has an IdentifierLiteral handler, but the Insignificant
variant has no IdentifierLiteral alternative so it can never match. -/
def collectStep (tokenLines : View) (tokRef : Option Nat)
    (acc : List View × List Insignificant) (ji : Nat × Insignificant) :
    List View × List Insignificant :=
  let vms := acc.1
  let outIns := acc.2
  let j := ji.1
  match ji.2 with
  | Insignificant.invalidEncoding ie =>
    if ie.isTainted || !(ie.input.isPartOf tokenLines) then
      (vms, outIns ++ [Insignificant.invalidEncoding ie])
    else
      let ie2 := if some j ≠ tokRef then { ie with isTainted := true } else ie
      (vms ++ [ie.input], outIns ++ [Insignificant.invalidEncoding ie2])
  | Insignificant.commentLiteral cl =>
    if cl.isTainted || !(cl.input.isPartOf tokenLines) then
      (vms, outIns ++ [Insignificant.commentLiteral cl])
    else
      let cl2 := if some j ≠ tokRef then { cl with isTainted := true } else cl
      (vms ++ cl.decodeErrors, outIns ++ [Insignificant.commentLiteral cl2])
  | Insignificant.newLineIndentation nli =>
    if nli.isTainted || !(nli.input.isPartOf tokenLines) then
      (vms, outIns ++ [Insignificant.newLineIndentation nli])
    else if nli.errors.all NewlineError.isDecoded then
      let nli2 := if some j ≠ tokRef then { nli with isTainted := true } else nli
      (vms ++ nli.errors.filterMap NewlineError.depInput,
        outIns ++ [Insignificant.newLineIndentation nli2])
    else (vms, outIns ++ [Insignificant.newLineIndentation nli])
  | other => (vms, outIns ++ [other])

/-- collectDecodeErrorMarkers: walk the insignificants, appending the
markers of every untainted co-located decode-error carrier and tainting
each carrier other than the reporting one. -/
def collectDecodeErrorMarkers (vms0 : List View) (insigs : List Insignificant)
    (tokenLines : View) (tokRef : Option Nat) : List View × List Insignificant :=
  (insigs.enum).foldl (collectStep tokenLines tokRef) (vms0, [])

/-- reportDecodeErrorMarkers: escape the token lines and wrap them into
the code ("rebuild-lexer", 1) diagnostic, with the singular paragraph
exactly when there is one marker. -/
def reportDecodeErrorMarkers (buf : List Nat) (line : Nat) (tokenLines : View)
    (viewMarkers : List View) : Diagnostic :=
  let em := escapeSourceLine buf tokenLines viewMarkers
  let highlights := em.markers.map fun m => Highlight.mk m
  { code := ⟨"rebuild-lexer", 1⟩
    parts := [⟨"Invalid UTF8 Encoding",
      [DocPart.paragraph
        (if viewMarkers.length = 1 then "The UTF8-decoder encountered an invalid encoding"
         else "The UTF8-decoder encountered multiple invalid encodings"),
       DocPart.sourceCodeBlock ⟨em.escaped, highlights, "", line⟩]⟩] }

/-- reportDecodeErrors: compute the token lines, collect co-located
markers, and emit the decode-error diagnostic. -/
def reportDecodeErrors (buf : List Nat) (bl : BlockLine) (tokInput : View)
    (tokLine : Nat) (tokRef : Option Nat) : Diagnostic × List Insignificant :=
  let tokenLines := extractViewLines buf bl tokInput
  let r := collectDecodeErrorMarkers [] bl.insignificants tokenLines tokRef
  (reportDecodeErrorMarkers buf tokLine tokenLines r.1, r.2)

/-- reportTokenWithDecodeErrors, shared by CommentLiteral and
IdentifierLiteral: short-circuit when tainted or free of decode errors. -/
def reportTokenWithDecodeErrors (buf : List Nat) (bl : BlockLine) (input : View)
    (line : Nat) (decodeErrors : List View) (tainted : Bool) (tokRef : Option Nat) :
    List Diagnostic × List Insignificant :=
  if tainted || decodeErrors.isEmpty then ([], bl.insignificants)
  else
    let r := reportDecodeErrors buf bl input line tokRef
    ([r.1], r.2)

/-- reportInvalidEncoding: short-circuit when tainted. -/
def reportInvalidEncoding (buf : List Nat) (bl : BlockLine) (ie : InvalidEnc)
    (j : Nat) : List Diagnostic × List Insignificant :=
  if ie.isTainted then ([], bl.insignificants)
  else
    let r := reportDecodeErrors buf bl ie.input ie.line (some j)
    ([r.1], r.2)

/-- The sibling walk of the mixed-indent sub-pass of reportNewline: any
untainted NewLineIndentation inside tokenLines whose errors are all
MixedIndentCharacter contributes its markers and is tainted unless it is
the reporting newline itself (index j). -/
def mixedStep (tokenLines : View) (j : Nat)
    (acc : List View × List Insignificant) (ki : Nat × Insignificant) :
    List View × List Insignificant :=
  let vms := acc.1
  let outIns := acc.2
  let k := ki.1
  match ki.2 with
  | Insignificant.newLineIndentation onli =>
    if onli.isTainted || !(onli.input.isPartOf tokenLines) then
      (vms, outIns ++ [Insignificant.newLineIndentation onli])
    else if onli.errors.all fun e => !(NewlineError.isDecoded e) then
      let onli2 := if k ≠ j then { onli with isTainted := true } else onli
      (vms ++ onli.errors.filterMap NewlineError.micInput,
        outIns ++ [Insignificant.newLineIndentation onli2])
    else (vms, outIns ++ [Insignificant.newLineIndentation onli])
  | other => (vms, outIns ++ [other])

/-- reportNewline: the decode-error sub-pass followed by the mixed-indent
sub-pass, both reporting at line - 1 (the newline terminates the previous
logical line). -/
def reportNewline (buf : List Nat) (bl : BlockLine) (nli : NewLineIndent)
    (j : Nat) : List Diagnostic × List Insignificant :=
  if nli.isTainted || nli.errors.isEmpty then ([], bl.insignificants)
  else
    let tokenLines := extractViewLines buf bl nli.input
    let first :=
      let vm := nli.errors.filterMap NewlineError.depInput
      if vm.isEmpty then (([] : List Diagnostic), bl.insignificants)
      else
        let vm := if vm.length = nli.errors.length then [] else vm
        let r := collectDecodeErrorMarkers vm bl.insignificants tokenLines (some j)
        ([reportDecodeErrorMarkers buf (nli.line - 1) tokenLines r.1], r.2)
    let vm2 := nli.errors.filterMap NewlineError.micInput
    if vm2.isEmpty then first
    else
      let r2 := (first.2.enum).foldl (mixedStep tokenLines j) (vm2, [])
      let em := escapeSourceLine buf tokenLines r2.1
      let highlights := em.markers.map fun m => Highlight.mk m
      let d : Diagnostic :=
        { code := ⟨"rebuild-lexer", 3⟩
          parts := [⟨"Mixed Indentation Characters",
            [DocPart.paragraph "The indentation mixes tabs and spaces.",
             DocPart.sourceCodeBlock ⟨em.escaped, highlights, "", nli.line - 1⟩]⟩] }
      (first.1 ++ [d], r2.2)

/-- The sibling walk of reportUnexpectedCharacter: every
UnexpectedCharacter lying inside tokenLines contributes its view (the
source does not test isTainted here) and is tainted unless it is the
reporting carrier (index j). -/
def ucStep (tokenLines : View) (j : Nat)
    (acc : List View × List Insignificant) (ki : Nat × Insignificant) :
    List View × List Insignificant :=
  let vms := acc.1
  let outIns := acc.2
  let k := ki.1
  match ki.2 with
  | Insignificant.unexpectedCharacter ouc =>
    if decide (tokenLines.b ≤ ouc.input.b) && decide (ouc.input.e ≤ tokenLines.e) then
      let ouc2 := if k ≠ j then { ouc with isTainted := true } else ouc
      (vms ++ [ouc.input], outIns ++ [Insignificant.unexpectedCharacter ouc2])
    else (vms, outIns ++ [Insignificant.unexpectedCharacter ouc])
  | other => (vms, outIns ++ [other])

/-- reportUnexpectedCharacter: collect the co-located unexpected
characters, escape, and emit the code ("rebuild-lexer", 2) diagnostic. -/
def reportUnexpectedCharacter (buf : List Nat) (bl : BlockLine)
    (uc : UnexpectedChar) (j : Nat) : List Diagnostic × List Insignificant :=
  if uc.isTainted then ([], bl.insignificants)
  else
    let tokenLines := extractViewLines buf bl uc.input
    let r := (bl.insignificants.enum).foldl (ucStep tokenLines j) ([], [])
    let em := escapeSourceLine buf tokenLines r.1
    let highlights := em.markers.map fun m => Highlight.mk m
    let d : Diagnostic :=
      { code := ⟨"rebuild-lexer", 2⟩
        parts := [⟨"Unexpected characters",
          [DocPart.paragraph
            (if r.1.length = 1 then
              "The tokenizer encountered a character that is not part of any Rebuild language token."
             else
              "The tokenizer encountered multiple characters that are not part of any Rebuild language token."),
           DocPart.sourceCodeBlock ⟨em.escaped, highlights, "", uc.line⟩]⟩] }
    ([d], r.2)

/-- The diagnostic that reportStringLiteral emits for one string error
kind: its markers are the inputs of every error of that kind, and the
InvalidEncoding kind delegates to the decode-error block with exactly
those markers. -/
def stringKindDiag (buf : List Nat) (bl : BlockLine) (sl : StringLit)
    (k : StringErrorKind) : Diagnostic :=
  let tokenLines := extractViewLines buf bl sl.input
  let vm := (sl.errors.filter fun e => decide (e.kind = k)).map fun e => e.input
  let em := escapeSourceLine buf tokenLines vm
  let highlights := em.markers.map fun m => Highlight.mk m
  match k with
  | StringErrorKind.endOfInput =>
    { code := ⟨"rebuild-lexer", 10⟩
      parts := [⟨"Unexpected end of input",
        [DocPart.paragraph "The string was not terminated.",
         DocPart.sourceCodeBlock ⟨em.escaped, highlights, "", sl.line⟩]⟩] }
  | StringErrorKind.invalidEncoding =>
    reportDecodeErrorMarkers buf sl.line tokenLines vm
  | StringErrorKind.invalidEscape =>
    { code := ⟨"rebuild-lexer", 11⟩
      parts := [⟨"Unkown escape sequence",
        [DocPart.paragraph "These Escape sequences are unknown.",
         DocPart.sourceCodeBlock ⟨em.escaped, highlights, "", sl.line⟩]⟩] }
  | StringErrorKind.invalidControl =>
    { code := ⟨"rebuild-lexer", 12⟩
      parts := [⟨"Unkown control characters",
        [DocPart.paragraph "Use of invalid control characters. Use escape sequences.",
         DocPart.sourceCodeBlock ⟨em.escaped, highlights, "", sl.line⟩]⟩] }
  | StringErrorKind.invalidDecimalUnicode =>
    { code := ⟨"rebuild-lexer", 13⟩
      parts := [⟨"Invalid decimal unicode",
        [DocPart.paragraph "Use of invalid decimal unicode values.",
         DocPart.sourceCodeBlock ⟨em.escaped, highlights, "", sl.line⟩]⟩] }
  | StringErrorKind.invalidHexUnicode =>
    { code := ⟨"rebuild-lexer", 14⟩
      parts := [⟨"Invalid hexadecimal unicode",
        [DocPart.paragraph "Use of invalid hexadecimal unicode values.",
         DocPart.sourceCodeBlock ⟨em.escaped, highlights, "", sl.line⟩]⟩] }

/-- The error loop of reportStringLiteral: the bitset of already reported
kinds is modelled by a list of seen kinds (only membership is read). -/
def slLoop (buf : List Nat) (bl : BlockLine) (sl : StringLit) :
    List StringError → List StringErrorKind → List Diagnostic
  | [], _ => []
  | err :: rest, seen =>
    if err.kind ∈ seen then slLoop buf bl sl rest seen
    else stringKindDiag buf bl sl err.kind :: slLoop buf bl sl rest (err.kind :: seen)

/-- reportStringLiteral: emit at most one diagnostic per error kind, in
order of each kind's first occurrence; no state is mutated. -/
def reportStringLiteral (buf : List Nat) (bl : BlockLine) (sl : StringLit) :
    List Diagnostic :=
  if sl.isTainted || sl.errors.isEmpty then []
  else slLoop buf bl sl sl.errors []

/-- The diagnostic that reportNumberLiteral emits for one error variant
index. -/
def numberKindDiag (buf : List Nat) (bl : BlockLine) (nl : NumberLit)
    (k : Nat) : Diagnostic :=
  let tokenLines := extractViewLines buf bl nl.input
  let vm := (nl.errors.filter fun e => decide (e.idx = k)).map NumberError.input
  let em := escapeSourceLine buf tokenLines vm
  let highlights := em.markers.map fun m => Highlight.mk m
  if k = 0 then reportDecodeErrorMarkers buf nl.line tokenLines vm
  else if k = 1 then
    { code := ⟨"rebuild-lexer", 20⟩
      parts := [⟨"Missing exponent value",
        [DocPart.paragraph "After the exponent sign an actual value is expected.",
         DocPart.sourceCodeBlock ⟨em.escaped, highlights, "", nl.line⟩]⟩] }
  else if k = 2 then
    { code := ⟨"rebuild-lexer", 21⟩
      parts := [⟨"Missing value",
        [DocPart.paragraph "After the radix sign an actual value is expected.",
         DocPart.sourceCodeBlock ⟨em.escaped, highlights, "", nl.line⟩]⟩] }
  else
    { code := ⟨"rebuild-lexer", 22⟩
      parts := [⟨"Missing boundary",
        [DocPart.paragraph "The number literal ends with an unknown suffix.",
         DocPart.sourceCodeBlock ⟨em.escaped, highlights, "", nl.line⟩]⟩] }

/-- The error loop of reportNumberLiteral, deduplicating by variant
index. -/
def nlLoop (buf : List Nat) (bl : BlockLine) (nl : NumberLit) :
    List NumberError → List Nat → List Diagnostic
  | [], _ => []
  | err :: rest, seen =>
    if err.idx ∈ seen then nlLoop buf bl nl rest seen
    else numberKindDiag buf bl nl err.idx :: nlLoop buf bl nl rest (err.idx :: seen)

/-- reportNumberLiteral. -/
def reportNumberLiteral (buf : List Nat) (bl : BlockLine) (nl : NumberLit) :
    List Diagnostic :=
  if nl.isTainted || nl.errors.isEmpty then []
  else nlLoop buf bl nl nl.errors []

/-- The diagnostic that reportOperatorLiteral emits for one error variant
index. -/
def operatorKindDiag (buf : List Nat) (bl : BlockLine) (ol : OperatorLit)
    (k : Nat) : Diagnostic :=
  let tokenLines := extractViewLines buf bl ol.input
  let vm := (ol.errors.filter fun e => decide (e.idx = k)).map OperatorError.input
  let em := escapeSourceLine buf tokenLines vm
  let highlights := em.markers.map fun m => Highlight.mk m
  if k = 0 then reportDecodeErrorMarkers buf ol.line tokenLines vm
  else if k = 1 then
    { code := ⟨"rebuild-lexer", 30⟩
      parts := [⟨"Operator wrong close",
        [DocPart.paragraph "The closing sign does not match the opening sign.",
         DocPart.sourceCodeBlock ⟨em.escaped, highlights, "", ol.line⟩]⟩] }
  else if k = 2 then
    { code := ⟨"rebuild-lexer", 31⟩
      parts := [⟨"Operator unexpected close",
        [DocPart.paragraph "There was no opening sign before the closing sign.",
         DocPart.sourceCodeBlock ⟨em.escaped, highlights, "", ol.line⟩]⟩] }
  else
    { code := ⟨"rebuild-lexer", 32⟩
      parts := [⟨"Operator not closed",
        [DocPart.paragraph "The operator ends before the closing sign was found.",
         DocPart.sourceCodeBlock ⟨em.escaped, highlights, "", ol.line⟩]⟩] }

/-- The error loop of reportOperatorLiteral, deduplicating by variant
index. -/
def olLoop (buf : List Nat) (bl : BlockLine) (ol : OperatorLit) :
    List OperatorError → List Nat → List Diagnostic
  | [], _ => []
  | err :: rest, seen =>
    if err.idx ∈ seen then olLoop buf bl ol rest seen
    else operatorKindDiag buf bl ol err.idx :: olLoop buf bl ol rest (err.idx :: seen)

/-- reportOperatorLiteral. -/
def reportOperatorLiteral (buf : List Nat) (bl : BlockLine) (ol : OperatorLit) :
    List Diagnostic :=
  if ol.isTainted || ol.errors.isEmpty then []
  else olLoop buf bl ol ol.errors []

/-- BlockLine::forEach as a list of yielded elements: merge the two
sequences, comparing the begins of the input views, the token first only
when its begin is strictly smaller.  Fueled; the fuel is at least the sum
of the lengths. -/
def forEachAux : Nat → List Token → List Insignificant →
    List (Sum Token Insignificant)
  | 0, _, _ => []
  | fuel+1, ts, is =>
    match ts, is with
    | t :: ts2, i :: is2 =>
      if (tokenInput t).b < (insigInput i).b then
        Sum.inl t :: forEachAux fuel ts2 (i :: is2)
      else
        Sum.inr i :: forEachAux fuel (t :: ts2) is2
    | ts, [] => ts.map Sum.inl
    | [], is => is.map Sum.inr

/-- BlockLine::forEach, fully fueled. -/
def forEachList (ts : List Token) (is : List Insignificant) :
    List (Sum Token Insignificant) :=
  forEachAux (ts.length + is.length) ts is

/-- The iteration order of reportLineErrors as element indices (inl a
token index, inr an insignificant index): the same merge as forEach, on
the immutable input views, computed once since taint never changes a
view. -/
def mergeRefsAux : Nat → List (Nat × View) → List (Nat × View) →
    List (Sum Nat Nat)
  | 0, _, _ => []
  | fuel+1, ts, is =>
    match ts, is with
    | t :: ts2, i :: is2 =>
      if t.2.b < i.2.b then Sum.inl t.1 :: mergeRefsAux fuel ts2 (i :: is2)
      else Sum.inr i.1 :: mergeRefsAux fuel (t :: ts2) is2
    | ts, [] => ts.map fun x => Sum.inl x.1
    | [], is => is.map fun x => Sum.inr x.1

/-- The dispatch order of a block line. -/
def lineRefs (bl : BlockLine) : List (Sum Nat Nat) :=
  mergeRefsAux (bl.tokens.length + bl.insignificants.length)
    (bl.tokens.enum.map fun x => (x.1, tokenInput x.2))
    (bl.insignificants.enum.map fun x => (x.1, insigInput x.2))

/-- Dispatch one significant token to its reporter. -/
def dispatchToken (buf : List Nat) (bl : BlockLine) (t : Token) :
    List Diagnostic × List Insignificant :=
  match t with
  | Token.stringLiteral sl => (reportStringLiteral buf bl sl, bl.insignificants)
  | Token.numberLiteral nl => (reportNumberLiteral buf bl nl, bl.insignificants)
  | Token.identifierLiteral il =>
    reportTokenWithDecodeErrors buf bl il.input il.line il.decodeErrors il.isTainted none
  | Token.operatorLiteral ol => (reportOperatorLiteral buf bl ol, bl.insignificants)
  | _ => ([], bl.insignificants)

/-- Dispatch the insignificant at index j to its reporter, reading its
current (possibly tainted) state. -/
def dispatchInsig (buf : List Nat) (bl : BlockLine) (j : Nat) :
    List Diagnostic × List Insignificant :=
  match bl.insignificants.get? j with
  | some (Insignificant.newLineIndentation nli) => reportNewline buf bl nli j
  | some (Insignificant.commentLiteral cl) =>
    reportTokenWithDecodeErrors buf bl cl.input cl.line cl.decodeErrors cl.isTainted (some j)
  | some (Insignificant.invalidEncoding ie) => reportInvalidEncoding buf bl ie j
  | some (Insignificant.unexpectedCharacter uc) => reportUnexpectedCharacter buf bl uc j
  | _ => ([], bl.insignificants)

/-- reportLineErrors: walk the block line in source order and route each
element to its reporter, threading the taint state and accumulating the
emitted diagnostics in order. -/
def reportLineErrors (buf : List Nat) (bl : BlockLine) :
    List Diagnostic × BlockLine :=
  (lineRefs bl).foldl
    (fun acc ref =>
      match ref with
      | Sum.inl ti =>
        match acc.2.tokens.get? ti with
        | some t =>
          let r := dispatchToken buf acc.2 t
          (acc.1 ++ r.1, { acc.2 with insignificants := r.2 })
        | none => acc
      | Sum.inr ii =>
        let r := dispatchInsig buf acc.2 ii
        (acc.1 ++ r.1, { acc.2 with insignificants := r.2 }))
    ([], bl)

/-- Whether one highlight span lies within a rendered text of the given
length: nonnegative start and length, end within the text. -/
def spanOk (textLen : Nat) (h : Highlight) : Bool :=
  decide (0 ≤ h.span.start) && decide (0 ≤ h.span.length)
    && decide (h.span.start + h.span.length ≤ (textLen : Int))

/-- Whether every highlight of a document part lies within its text. -/
def docPartSpansOk : DocPart → Bool
  | DocPart.paragraph _ => true
  | DocPart.sourceCodeBlock scb => scb.highlights.all (spanOk scb.text.length)

/-- Whether every highlight span of every source code block of a
diagnostic lies within that block's text. -/
def diagSpansOk (d : Diagnostic) : Bool :=
  d.parts.all fun ex => ex.document.all docPartSpansOk

/-- The number of highlights in one document part. -/
def docPartHighlights : DocPart → Nat
  | DocPart.paragraph _ => 0
  | DocPart.sourceCodeBlock scb => scb.highlights.length

/-- The total number of highlights carried by a diagnostic. -/
def diagHighlightCount (d : Diagnostic) : Nat :=
  (d.parts.map fun ex => (ex.document.map docPartHighlights).sum).sum

/-- The buffer of the C1 scenario: the single invalid byte 0xFF. -/
def c1buf : List Nat := [255]

/-- The C1 scenario: a block line holding one untainted InvalidEncoding
insignificant. -/
def c1bl : BlockLine := ⟨[], [Insignificant.invalidEncoding ⟨⟨0, 1⟩, 1, false⟩]⟩

/-- The buffer of the C2 scenario: the bytes of "ab", 0xFF, "cd". -/
def c2buf : List Nat := [97, 98, 255, 99, 100]

/-- The C2 scenario: one IdentifierLiteral over the whole buffer with one
decode error at byte offset 2. -/
def c2bl : BlockLine :=
  ⟨[Token.identifierLiteral ⟨⟨0, 5⟩, 1, [⟨2, 3⟩], false⟩], []⟩

/-- The buffer of the C3 scenario: "a", 0xFF, "b", space, "c", 0xFE, "d". -/
def c3buf : List Nat := [97, 255, 98, 32, 99, 254, 100]

/-- The C3 scenario: two identifiers each carrying one decode error,
separated by a whitespace insignificant, all on one physical line. -/
def c3bl : BlockLine :=
  ⟨[Token.identifierLiteral ⟨⟨0, 3⟩, 1, [⟨1, 2⟩], false⟩,
    Token.identifierLiteral ⟨⟨4, 7⟩, 1, [⟨5, 6⟩], false⟩],
   [Insignificant.whiteSpaceSeparator ⟨3, 4⟩]⟩

/-- The buffer of the C4 scenario: the bytes of "ab". -/
def c4buf : List Nat := [97, 98]

/-- The view of the C4 scenario. -/
def c4view : View := ⟨0, 2⟩

/-- The markers of the C4 scenario: one view per letter. -/
def c4vms : List View := [⟨0, 1⟩, ⟨1, 2⟩]

/-- The buffer of the C5 scenario: a tab then a space. -/
def c5buf : List Nat := [9, 32]

/-- The C5 scenario: one untainted NewLineIndentation at logical line 7
whose errors are exactly two MixedIndentCharacter entries. -/
def c5bl : BlockLine :=
  ⟨[], [Insignificant.newLineIndentation
    ⟨⟨0, 2⟩, 7, [NewlineError.mixedIndentCharacter ⟨0, 1⟩,
                 NewlineError.mixedIndentCharacter ⟨1, 2⟩], false⟩]⟩

/-- The buffer of the C9 scenario: "a", linefeed, "b", "c". -/
def c9buf : List Nat := [97, 10, 98, 99]

/-- The C9 scenario: one StringLiteral over the whole buffer carrying two
InvalidEscape errors, the second covering the last byte after the
linefeed. -/
def c9bl : BlockLine :=
  ⟨[Token.stringLiteral ⟨⟨0, 4⟩, 1,
     [⟨StringErrorKind.invalidEscape, ⟨0, 1⟩⟩,
      ⟨StringErrorKind.invalidEscape, ⟨3, 4⟩⟩], false⟩], []⟩

/-- Claim C1: the claim states that a second call of reportLineErrors on
the same block line emits zero diagnostics.  The code never sets
isTainted on the carrier that emitted its own diagnostic (every taint
assignment is guarded by a comparison against the reporting carrier), so
on the C1 scenario the second call re-emits the code 1 diagnostic: both
the first and the second call emit exactly one diagnostic. -/
theorem secondPassReemitsDiagnostic :
    (reportLineErrors c1buf c1bl).1.length = 1
      ∧ (reportLineErrors c1buf (reportLineErrors c1buf c1bl).2).1.length = 1 := by
  decide

/-- Claim C2: the claim states that the identifier scenario yields one
code 1 diagnostic with the singular paragraph, text "ab\[ff]cd" and one
highlight of span start 2 length 5.  The code emits one code 1 diagnostic
with that text, but with the plural paragraph and zero highlights: the
identifier is a significant token, and collectDecodeErrorMarkers only
walks insignificants (its IdentifierLiteral handler can never match), so
the identifier's own decode errors are never collected. -/
theorem identifierDecodeErrorDiagnosticShape :
    (reportLineErrors c2buf c2bl).1 =
      [⟨⟨"rebuild-lexer", 1⟩,
        [⟨"Invalid UTF8 Encoding",
          [DocPart.paragraph "The UTF8-decoder encountered multiple invalid encodings",
           DocPart.sourceCodeBlock
             ⟨[97, 98, 92, 91, 102, 102, 93, 99, 100], [], "", 1⟩]⟩]⟩] := by
  decide

/-- Claim C3: the claim states that two distinct decode-error carriers on
one physical line produce at most one code 1 diagnostic.  For the two
identifier tokens of the C3 scenario the code emits two code 1
diagnostics: neither identifier can collect or taint the other, because
the sibling walk only visits insignificants. -/
theorem siblingIdentifiersTwoDiagnostics :
    ((reportLineErrors c3buf c3bl).1.map fun d => d.code.number) = [1, 1] := by
  decide

/-- Claim C4: the claim states that on the fast path every span i equals
start marker i begin minus view begin, length marker i byte count.  The
fast-path loop never increments its index, so only span 0 is overwritten,
and with the last marker's values: on the C4 scenario the returned text
is the raw view but the spans are start 1 length 1 twice, not the claimed
start 0 length 1 followed by start 1 length 1. -/
theorem fastPathMarkerZeroOverwritten :
    (escapeSourceLine c4buf c4view c4vms).escaped = [97, 98]
      ∧ (escapeSourceLine c4buf c4view c4vms).markers
          = [TextSpan.mk 1 1, TextSpan.mk 1 1]
      ∧ (escapeSourceLine c4buf c4view c4vms).markers
          ≠ [TextSpan.mk 0 1, TextSpan.mk 1 1] := by
  decide

/-- Claim C5: the claim states that a newline whose errors are exactly two
MixedIndentCharacter entries yields one code 3 diagnostic with two
highlights at origin line 6.  The code emits one code 3 diagnostic at
origin line 6 but with four highlights: the mixed-indent sibling walk
re-visits the reporting newline itself and appends its two markers a
second time (unlike the decode sub-pass, which clears its local list to
keep the walk the sole source). -/
theorem mixedIndentHighlightsDuplicated :
    (reportLineErrors c5buf c5bl).1 =
      [⟨⟨"rebuild-lexer", 3⟩,
        [⟨"Mixed Indentation Characters",
          [DocPart.paragraph "The indentation mixes tabs and spaces.",
           DocPart.sourceCodeBlock
             ⟨[92, 116, 32],
              [⟨⟨0, 2⟩⟩, ⟨⟨2, 1⟩⟩, ⟨⟨0, 2⟩⟩, ⟨⟨2, 1⟩⟩], "", 6⟩]⟩]⟩] := by
  decide

/-- Claim C9: the claim states that every emitted highlight span satisfies
nonnegative start and length with start plus length at most the text
length.  On the C9 scenario the code emits a code 11 diagnostic whose
text is the raw four byte view but whose second highlight is start 5
length 1: the linefeed advanced the streaming offset by three columns for
one byte, requiresEscapes stayed false, and the fast path recomputed only
span 0, leaving the out-of-bounds streaming span 1 in place. -/
theorem highlightSpanExceedsText :
    (reportLineErrors c9buf c9bl).1.length = 1
      ∧ ((reportLineErrors c9buf c9bl).1.all diagSpansOk) = false := by
  decide

/-- The buffer of the C7 scenario: "a", linefeed, "b". -/
def c7buf : List Nat := [97, 10, 98]

/-- The view of the C7 scenario. -/
def c7view : View := ⟨0, 3⟩

/-- Whether escaping one decoded item sets requiresEscapes: every escaped
item does, except the single linefeed byte; pass-through scalars and the
doubled backslash never do. -/
def itemSetsFlag (buf : List Nat) : DecodedItem → Bool
  | DecodedItem.codePoint input cp =>
    (isCombiningMark cp || isControl cp || isNonCharacter cp || isSurrogate cp)
      && !(decide (bytesOf buf input = [10]))
  | DecodedItem.error input => !(decide (bytesOf buf input = [10]))

lemma escStep_flag (buf : List Nat) (vms : List View) (st : EscState) (item : DecodedItem) :
    (escStep buf vms st item).requiresEscapes
      = (st.requiresEscapes || itemSetsFlag buf item) := by
  cases item with
  | codePoint input cp =>
    by_cases hsp : (isCombiningMark cp || isControl cp || isNonCharacter cp
        || isSurrogate cp) = true
    · simp [escStep, addEscaped, itemSetsFlag, hsp]
    · by_cases hbs : cp = 92
      · subst hbs
        simp [escStep, addEscaped, itemSetsFlag, hsp]
      · simp [escStep, addEscaped, itemSetsFlag, hsp, hbs]
  | error input => simp [escStep, addEscaped, itemSetsFlag]

lemma foldl_flag_false (buf : List Nat) (vms : List View) :
    ∀ (items : List DecodedItem) (st : EscState),
      st.requiresEscapes = false → (∀ i ∈ items, itemSetsFlag buf i = false) →
      (items.foldl (escStep buf vms) st).requiresEscapes = false := by
  intro items
  induction items with
  | nil => intro st h _; simpa using h
  | cons it rest ih =>
    intro st h hall
    simp only [List.foldl_cons]
    apply ih
    · rw [escStep_flag, h, hall it (by simp)]; rfl
    · intro i hi; exact hall i (by simp [hi])

/-- Claim C7 counterexample: the claim states that a view containing a
linefeed and no other escape-requiring character is returned escaped,
with the linefeed rendered as backslash n followed by a literal linefeed.
On the three byte view "a", linefeed, "b" the code returns the raw view:
the linefeed case of addEscaped does not set requiresEscapes, and the
fast path tests only that flag. -/
theorem lfViewReturnsRawCounterexample :
    (escapeSourceLine c7buf c7view []).escaped = [97, 10, 98]
      ∧ (escapeSourceLine c7buf c7view []).escaped ≠ [97, 92, 110, 10, 98] := by
  decide

/-- Claim C7 as amended: escapeSourceLine takes the fast path exactly when
requiresEscapes stayed false, and the linefeed never sets that flag, so
for every view that contains a linefeed byte and no flag-setting item the
returned text is the raw view, not the escaped rendering. -/
theorem escapeSourceLineNoFlagIsRaw (buf : List Nat) (v : View) (vms : List View)
    (_h1 : 10 ∈ bytesOf buf v)
    (h2 : ∀ i ∈ utf8Decode buf v, itemSetsFlag buf i = false) :
    (escapeSourceLine buf v vms).escaped = bytesOf buf v := by
  unfold escapeSourceLine
  have hf := foldl_flag_false buf vms (utf8Decode buf v)
    ⟨[], vms.map fun _ => TextSpan.mk (-1) (-1), v.b, 0, false⟩ rfl h2
  simp only [hf, Bool.false_eq_true, if_false, bytesOf]

/-- Witness for the amended claim C7, at the concrete view "a", linefeed,
"b" with no markers. -/
theorem escapeSourceLineNoFlagIsRawWitness :
    (10 ∈ bytesOf c7buf c7view
        ∧ ∀ i ∈ utf8Decode c7buf c7view, itemSetsFlag c7buf i = false)
      ∧ (escapeSourceLine c7buf c7view []).escaped = bytesOf c7buf c7view :=
  ⟨⟨by decide, by decide⟩,
    escapeSourceLineNoFlagIsRaw c7buf c7view [] (by decide) (by decide)⟩

/-- Modelled from the spec: the multi-byte escape rendering given by the
escape-forms table, concatenating each byte as two hex nibbles. -/
def specMultiByteEscape (bytes : List Nat) : List Nat :=
  [92, 91] ++ (bytes.map fun b => [hexDigit (b % 256 / 16), hexDigit (b % 256 % 16)]).flatten
    ++ [93]

/-- Claim C8 counterexample: the claim states that a decode error of n
bytes is rendered with exactly two hex nibbles per byte, a byte 0x05
contributing "05".  The code streams each byte through std::hex without
padding, so the two byte input 0xC2 0x05 renders as backslash bracket
"c25" bracket, five characters inside where the claim demands "c205". -/
theorem multiByteEscapeUnpaddedCounterexample :
    escapedStr [194, 5] = [92, 91, 99, 50, 53, 93]
      ∧ escapedStr [194, 5] ≠ specMultiByteEscape [194, 5] := by
  decide

/-- Claim C8 as amended: a multi-byte decode error is rendered as
backslash bracket, then each byte's lowercase hex without padding, then
the closing bracket; this coincides with the two-nibbles-per-byte form
exactly when every byte is at least 0x10. -/
theorem escapedStrTwoNibblesOfLargeBytes (bs : List Nat) (h2 : 2 ≤ bs.length)
    (hb : ∀ b ∈ bs, 16 ≤ b % 256) : escapedStr bs = specMultiByteEscape bs := by
  cases bs with
  | nil => simp at h2
  | cons x tl =>
    cases tl with
    | nil => simp at h2
    | cons y tl2 =>
      have hmap : (x :: y :: tl2).map hexByte
          = (x :: y :: tl2).map fun b => [hexDigit (b % 256 / 16), hexDigit (b % 256 % 16)] := by
        apply List.map_congr_left
        intro b hbm
        have h16 := hb b hbm
        have hlt : ¬ (b % 256 < 16) := by omega
        simp [hexByte, hlt]
      simp [escapedStr, specMultiByteEscape, hmap]

/-- Witness for the amended claim C8, at the concrete two byte decode
error 0xC2 0xBF. -/
theorem escapedStrTwoNibblesWitness :
    (2 ≤ ([194, 191] : List Nat).length ∧ ∀ b ∈ ([194, 191] : List Nat), 16 ≤ b % 256)
      ∧ escapedStr [194, 191] = specMultiByteEscape [194, 191] :=
  ⟨⟨by decide, by decide⟩,
    escapedStrTwoNibblesOfLargeBytes [194, 191] (by decide) (by decide)⟩

/-- The string error kinds of a list, first occurrences only, in order of
first occurrence. -/
def dedupFirstOcc (l : List StringErrorKind) : List StringErrorKind :=
  l.foldl (fun acc k => if k ∈ acc then acc else acc ++ [k]) []

/-- First-occurrence deduplication relative to a set of already seen
kinds, mirroring the reportedKinds bitset of reportStringLiteral. -/
def dedupSeen : List StringErrorKind → List StringErrorKind → List StringErrorKind
  | [], _ => []
  | k :: ks, seen => if k ∈ seen then dedupSeen ks seen else k :: dedupSeen ks (k :: seen)

lemma slLoop_eq_map (buf : List Nat) (bl : BlockLine) (sl : StringLit) :
    ∀ (errs : List StringError) (seen : List StringErrorKind),
      slLoop buf bl sl errs seen
        = (dedupSeen (errs.map StringError.kind) seen).map (stringKindDiag buf bl sl) := by
  intro errs
  induction errs with
  | nil => intro seen; simp [slLoop, dedupSeen]
  | cons e rest ih =>
    intro seen
    by_cases h : e.kind ∈ seen <;> simp [slLoop, dedupSeen, h, ih]

lemma dedupSeen_congr : ∀ (ks s1 s2 : List StringErrorKind),
    (∀ k, k ∈ s1 ↔ k ∈ s2) → dedupSeen ks s1 = dedupSeen ks s2 := by
  intro ks
  induction ks with
  | nil => intro s1 s2 _; rfl
  | cons k ks ih =>
    intro s1 s2 h
    by_cases hk : k ∈ s1
    · simp [dedupSeen, hk, (h k).1 hk, ih s1 s2 h]
    · have hk2 : k ∉ s2 := fun c => hk ((h k).2 c)
      simp only [dedupSeen, if_neg hk, if_neg hk2]
      rw [ih (k :: s1) (k :: s2) (by intro a; simp [h a])]

lemma foldl_dedupSeen : ∀ (ks acc : List StringErrorKind),
    ks.foldl (fun acc k => if k ∈ acc then acc else acc ++ [k]) acc
      = acc ++ dedupSeen ks acc := by
  intro ks
  induction ks with
  | nil => intro acc; simp [dedupSeen]
  | cons k ks ih =>
    intro acc
    by_cases h : k ∈ acc
    · simp [dedupSeen, h, ih]
    · simp only [List.foldl_cons, dedupSeen, if_neg h]
      rw [ih (acc ++ [k]),
        dedupSeen_congr ks (acc ++ [k]) (k :: acc) (by intro a; constructor <;> (intro ha; simp at ha ⊢; tauto))]
      simp

lemma dedupFirstOcc_eq (l : List StringErrorKind) : dedupFirstOcc l = dedupSeen l [] := by
  simp [dedupFirstOcc, foldl_dedupSeen]

lemma dedupSeen_nodup : ∀ (ks seen : List StringErrorKind),
    (dedupSeen ks seen).Nodup ∧ ∀ k ∈ dedupSeen ks seen, k ∉ seen := by
  intro ks
  induction ks with
  | nil => intro seen; simp [dedupSeen]
  | cons k ks ih =>
    intro seen
    by_cases h : k ∈ seen
    · simpa [dedupSeen, h] using ih seen
    · have ihk := ih (k :: seen)
      refine ⟨?_, ?_⟩
      · simp only [dedupSeen, if_neg h, List.nodup_cons]
        refine ⟨fun c => ?_, ihk.1⟩
        exact (ihk.2 k c) (by simp)
      · intro a ha
        simp only [dedupSeen, if_neg h, List.mem_cons] at ha
        rcases ha with rfl | ha
        · exact h
        · intro c; exact (ihk.2 a ha) (by simp [c])

lemma updMarkers_length (vms : List View) (p : Nat) (off : Int) (ms : List TextSpan) :
    (updMarkers vms p off ms).length = min vms.length ms.length := by
  simp [updMarkers]

lemma escStep_markers_length (buf : List Nat) (vms : List View) (st : EscState)
    (item : DecodedItem) (h : st.markers.length = vms.length) :
    (escStep buf vms st item).markers.length = vms.length := by
  cases item with
  | codePoint input cp =>
    by_cases hsp : (isCombiningMark cp || isControl cp || isNonCharacter cp
        || isSurrogate cp) = true
    · simp [escStep, addEscaped, hsp, updMarkers_length, h]
    · by_cases hbs : cp = 92
      · subst hbs
        simp [escStep, addEscaped, hsp, updMarkers_length, h]
      · simp [escStep, addEscaped, hsp, hbs, updMarkers_length, h]
  | error input => simp [escStep, addEscaped, updMarkers_length, h]

lemma foldl_markers_length (buf : List Nat) (vms : List View) :
    ∀ (items : List DecodedItem) (st : EscState), st.markers.length = vms.length →
      (items.foldl (escStep buf vms) st).markers.length = vms.length := by
  intro items
  induction items with
  | nil => intro st h; simpa using h
  | cons it rest ih =>
    intro st h
    simp only [List.foldl_cons]
    exact ih _ (escStep_markers_length buf vms st it h)

lemma escapeSourceLine_markers_length (buf : List Nat) (v : View) (vms : List View) :
    (escapeSourceLine buf v vms).markers.length = vms.length := by
  simp only [escapeSourceLine]
  have hlen := foldl_markers_length buf vms (utf8Decode buf v)
    ⟨[], vms.map fun _ => TextSpan.mk (-1) (-1), v.b, 0, false⟩ (by simp)
  have hupd : (updMarkers vms v.e
      ((utf8Decode buf v).foldl (escStep buf vms)
        ⟨[], vms.map fun _ => TextSpan.mk (-1) (-1), v.b, 0, false⟩).offset
      ((utf8Decode buf v).foldl (escStep buf vms)
        ⟨[], vms.map fun _ => TextSpan.mk (-1) (-1), v.b, 0, false⟩).markers).length
      = vms.length := by
    rw [updMarkers_length, hlen]; omega
  split
  · simpa using hupd
  · simp only [fastPathMarkers]
    split
    · simpa using hupd
    · simpa using hupd

lemma stringKindDiag_count (buf : List Nat) (bl : BlockLine) (sl : StringLit)
    (k : StringErrorKind) :
    diagHighlightCount (stringKindDiag buf bl sl k)
      = (sl.errors.filter fun e => decide (e.kind = k)).length := by
  cases k <;>
    simp [stringKindDiag, reportDecodeErrorMarkers, diagHighlightCount,
      docPartHighlights, escapeSourceLine_markers_length]

/-- Claim C6: for every untainted StringLiteral, reportStringLiteral
emits exactly one diagnostic per distinct error kind, in order of each
kind's first occurrence in the error list (the deduplicated kind list is
duplicate free), and the diagnostic of a kind carries one highlight per
error of that kind in the string. -/
theorem reportStringLiteralKindDedup (buf : List Nat) (bl : BlockLine) (sl : StringLit)
    (h : sl.isTainted = false) :
    reportStringLiteral buf bl sl
        = (dedupFirstOcc (sl.errors.map StringError.kind)).map (stringKindDiag buf bl sl)
      ∧ (dedupFirstOcc (sl.errors.map StringError.kind)).Nodup
      ∧ ∀ k, diagHighlightCount (stringKindDiag buf bl sl k)
          = (sl.errors.filter fun e => decide (e.kind = k)).length := by
  refine ⟨?_, ?_, fun k => stringKindDiag_count buf bl sl k⟩
  · unfold reportStringLiteral
    by_cases he : sl.errors.isEmpty
    · have hnil : sl.errors = [] := by simpa using he
      simp [h, he, hnil, dedupFirstOcc, dedupSeen]
    · simp [h, he, slLoop_eq_map, dedupFirstOcc_eq]
  · rw [dedupFirstOcc_eq]
    exact (dedupSeen_nodup _ _).1

/-- The buffer of the S4 string scenario: a fifteen byte string literal
with two unknown escape sequences and an unterminated end. -/
def c6buf : List Nat := [34, 97, 98, 99, 100, 92, 113, 103, 104, 92, 113, 105, 106, 107, 108]

/-- The S4 string literal: errors InvalidEscape at 5, InvalidEscape at 9,
EndOfInput at 14. -/
def c6sl : StringLit :=
  ⟨⟨0, 15⟩, 1,
   [⟨StringErrorKind.invalidEscape, ⟨5, 7⟩⟩,
    ⟨StringErrorKind.invalidEscape, ⟨9, 11⟩⟩,
    ⟨StringErrorKind.endOfInput, ⟨14, 15⟩⟩], false⟩

/-- The S4 block line. -/
def c6bl : BlockLine := ⟨[Token.stringLiteral c6sl], []⟩

/-- Witness for claim C6, at the S4 scenario. -/
theorem reportStringLiteralKindDedupWitness :
    c6sl.isTainted = false
      ∧ (reportStringLiteral c6buf c6bl c6sl
            = (dedupFirstOcc (c6sl.errors.map StringError.kind)).map (stringKindDiag c6buf c6bl c6sl)
          ∧ (dedupFirstOcc (c6sl.errors.map StringError.kind)).Nodup
          ∧ ∀ k, diagHighlightCount (stringKindDiag c6buf c6bl c6sl k)
              = (c6sl.errors.filter fun e => decide (e.kind = k)).length) :=
  ⟨rfl, reportStringLiteralKindDedup c6buf c6bl c6sl rfl⟩

/-- The begin of the input view of a yielded element. -/
def itemBegin : Sum Token Insignificant → Nat
  | Sum.inl t => (tokenInput t).b
  | Sum.inr i => (insigInput i).b

/-- The token of a yielded element, if it is one. -/
def getTok : Sum Token Insignificant → Option Token
  | Sum.inl t => some t
  | Sum.inr _ => none

/-- The insignificant of a yielded element, if it is one. -/
def getIns : Sum Token Insignificant → Option Insignificant
  | Sum.inl _ => none
  | Sum.inr i => some i

/-- Whether a yielded element is a significant token. -/
def isTok : Sum Token Insignificant → Bool
  | Sum.inl _ => true
  | Sum.inr _ => false

/-- Whether a yielded element is an insignificant. -/
def isIns : Sum Token Insignificant → Bool
  | Sum.inl _ => false
  | Sum.inr _ => true

lemma filterMapTok_map_inl (ts : List Token) :
    (ts.map (Sum.inl : Token → Sum Token Insignificant)).filterMap getTok = ts := by
  induction ts with
  | nil => rfl
  | cons t ts ih => simp [getTok, ih]

lemma filterMapTok_map_inr (is : List Insignificant) :
    (is.map (Sum.inr : Insignificant → Sum Token Insignificant)).filterMap getTok = [] := by
  induction is with
  | nil => rfl
  | cons i is ih => simp [getTok, ih]

lemma filterMapIns_map_inr (is : List Insignificant) :
    (is.map (Sum.inr : Insignificant → Sum Token Insignificant)).filterMap getIns = is := by
  induction is with
  | nil => rfl
  | cons i is ih => simp [getIns, ih]

lemma filterMapIns_map_inl (ts : List Token) :
    (ts.map (Sum.inl : Token → Sum Token Insignificant)).filterMap getIns = [] := by
  induction ts with
  | nil => rfl
  | cons t ts ih => simp [getIns, ih]

lemma forEachAux_tok : ∀ (n : Nat) (ts : List Token) (is : List Insignificant),
    ts.length + is.length ≤ n → (forEachAux n ts is).filterMap getTok = ts := by
  intro n
  induction n with
  | zero =>
    intro ts is h
    match ts, is with
    | [], [] => rfl
    | t :: ts, is => simp at h
    | [], i :: is => simp at h
  | succ n ih =>
    intro ts is h
    match ts, is with
    | [], [] => rfl
    | [], i :: is2 => simpa [forEachAux] using filterMapTok_map_inr (i :: is2)
    | t :: ts2, [] => simpa [forEachAux] using filterMapTok_map_inl (t :: ts2)
    | t :: ts2, i :: is2 =>
      simp only [forEachAux]
      split
      · simp only [List.filterMap_cons, getTok]
        rw [ih ts2 (i :: is2) (by simp at h ⊢; omega)]
      · simp only [List.filterMap_cons, getTok]
        rw [ih (t :: ts2) is2 (by simp at h ⊢; omega)]

lemma forEachAux_ins : ∀ (n : Nat) (ts : List Token) (is : List Insignificant),
    ts.length + is.length ≤ n → (forEachAux n ts is).filterMap getIns = is := by
  intro n
  induction n with
  | zero =>
    intro ts is h
    match ts, is with
    | [], [] => rfl
    | t :: ts, is => simp at h
    | [], i :: is => simp at h
  | succ n ih =>
    intro ts is h
    match ts, is with
    | [], [] => rfl
    | [], i :: is2 => simpa [forEachAux] using filterMapIns_map_inr (i :: is2)
    | t :: ts2, [] => simpa [forEachAux] using filterMapIns_map_inl (t :: ts2)
    | t :: ts2, i :: is2 =>
      simp only [forEachAux]
      split
      · simp only [List.filterMap_cons, getIns]
        rw [ih ts2 (i :: is2) (by simp at h ⊢; omega)]
      · simp only [List.filterMap_cons, getIns]
        rw [ih (t :: ts2) is2 (by simp at h ⊢; omega)]

lemma forEachAux_mem : ∀ (n : Nat) (ts : List Token) (is : List Insignificant)
    (x : Sum Token Insignificant), x ∈ forEachAux n ts is →
    (∃ t ∈ ts, x = Sum.inl t) ∨ ∃ i ∈ is, x = Sum.inr i := by
  intro n
  induction n with
  | zero =>
    intro ts is x hx
    simp [forEachAux] at hx
  | succ n ih =>
    intro ts is x hx
    match ts, is with
    | [], [] => simp [forEachAux] at hx
    | [], i :: is2 =>
      simp only [forEachAux, List.mem_map] at hx
      rcases hx with ⟨a, ha, rfl⟩
      exact Or.inr ⟨a, ha, rfl⟩
    | t :: ts2, [] =>
      simp only [forEachAux, List.mem_map] at hx
      rcases hx with ⟨a, ha, rfl⟩
      exact Or.inl ⟨a, ha, rfl⟩
    | t :: ts2, i :: is2 =>
      simp only [forEachAux] at hx
      split at hx
      · rcases List.mem_cons.1 hx with rfl | hx2
        · exact Or.inl ⟨t, by simp, rfl⟩
        · rcases ih ts2 (i :: is2) x hx2 with ⟨a, ha, rfl⟩ | ⟨a, ha, rfl⟩
          · exact Or.inl ⟨a, by simp [ha], rfl⟩
          · exact Or.inr ⟨a, ha, rfl⟩
      · rcases List.mem_cons.1 hx with rfl | hx2
        · exact Or.inr ⟨i, by simp, rfl⟩
        · rcases ih (t :: ts2) is2 x hx2 with ⟨a, ha, rfl⟩ | ⟨a, ha, rfl⟩
          · exact Or.inl ⟨a, ha, rfl⟩
          · exact Or.inr ⟨a, by simp [ha], rfl⟩

lemma forEachAux_pairwise_le : ∀ (n : Nat) (ts : List Token) (is : List Insignificant),
    List.Pairwise (fun a b => (tokenInput a).b ≤ (tokenInput b).b) ts →
    List.Pairwise (fun a b => (insigInput a).b ≤ (insigInput b).b) is →
    List.Pairwise (fun x y => itemBegin x ≤ itemBegin y) (forEachAux n ts is) := by
  intro n
  induction n with
  | zero => intro ts is _ _; simp [forEachAux]
  | succ n ih =>
    intro ts is hts his
    match ts, is with
    | [], [] => simp [forEachAux]
    | [], i :: is2 =>
      simp only [forEachAux]
      exact (List.pairwise_map).2 (his.imp fun h => h)
    | t :: ts2, [] =>
      simp only [forEachAux]
      exact (List.pairwise_map).2 (hts.imp fun h => h)
    | t :: ts2, i :: is2 =>
      have hts1 := (List.pairwise_cons.1 hts).1
      have hts2 := (List.pairwise_cons.1 hts).2
      have his1 := (List.pairwise_cons.1 his).1
      have his2 := (List.pairwise_cons.1 his).2
      simp only [forEachAux]
      split
      · rename_i hlt
        refine List.pairwise_cons.2 ⟨?_, ih ts2 (i :: is2) hts2 his⟩
        intro y hy
        rcases forEachAux_mem n ts2 (i :: is2) y hy with ⟨a, ha, rfl⟩ | ⟨a, ha, rfl⟩
        · exact hts1 a ha
        · rcases List.mem_cons.1 ha with rfl | ha2
          · exact Nat.le_of_lt hlt
          · exact Nat.le_of_lt (Nat.lt_of_lt_of_le hlt (his1 a ha2))
      · rename_i hge
        have hge2 : (insigInput i).b ≤ (tokenInput t).b := Nat.le_of_not_lt hge
        refine List.pairwise_cons.2 ⟨?_, ih (t :: ts2) is2 hts his2⟩
        intro y hy
        rcases forEachAux_mem n (t :: ts2) is2 y hy with ⟨a, ha, rfl⟩ | ⟨a, ha, rfl⟩
        · rcases List.mem_cons.1 ha with rfl | ha2
          · exact hge2
          · exact Nat.le_trans hge2 (hts1 a ha2)
        · exact his1 a ha

lemma pairwise_strict_map_inr (is : List Insignificant) :
    List.Pairwise (fun x y => isTok x = true → isIns y = true → itemBegin x < itemBegin y)
      (is.map (Sum.inr : Insignificant → Sum Token Insignificant)) := by
  induction is with
  | nil => simp
  | cons i is ih =>
    simp only [List.map_cons, List.pairwise_cons]
    exact ⟨fun y _ hxt => by simp [isTok] at hxt, ih⟩

lemma pairwise_strict_map_inl (ts : List Token) :
    List.Pairwise (fun x y => isTok x = true → isIns y = true → itemBegin x < itemBegin y)
      (ts.map (Sum.inl : Token → Sum Token Insignificant)) := by
  induction ts with
  | nil => simp
  | cons t ts ih =>
    simp only [List.map_cons, List.pairwise_cons]
    refine ⟨fun y hy _ hyi => ?_, ih⟩
    rcases List.mem_map.1 hy with ⟨a, _, rfl⟩
    simp [isIns] at hyi

lemma forEachAux_pairwise_strict : ∀ (n : Nat) (ts : List Token) (is : List Insignificant),
    List.Pairwise (fun a b => (tokenInput a).b ≤ (tokenInput b).b) ts →
    List.Pairwise (fun a b => (insigInput a).b ≤ (insigInput b).b) is →
    List.Pairwise (fun x y => isTok x = true → isIns y = true → itemBegin x < itemBegin y)
      (forEachAux n ts is) := by
  intro n
  induction n with
  | zero => intro ts is _ _; simp [forEachAux]
  | succ n ih =>
    intro ts is hts his
    match ts, is with
    | [], [] => simp [forEachAux]
    | [], i :: is2 =>
      simp only [forEachAux]
      exact pairwise_strict_map_inr (i :: is2)
    | t :: ts2, [] =>
      simp only [forEachAux]
      exact pairwise_strict_map_inl (t :: ts2)
    | t :: ts2, i :: is2 =>
      have hts2 := (List.pairwise_cons.1 hts).2
      have his1 := (List.pairwise_cons.1 his).1
      have his2 := (List.pairwise_cons.1 his).2
      simp only [forEachAux]
      split
      · rename_i hlt
        refine List.pairwise_cons.2 ⟨?_, ih ts2 (i :: is2) hts2 his⟩
        intro y hy _ hyi
        rcases forEachAux_mem n ts2 (i :: is2) y hy with ⟨a, _, rfl⟩ | ⟨a, ha, rfl⟩
        · simp [isIns] at hyi
        · rcases List.mem_cons.1 ha with rfl | ha2
          · exact hlt
          · exact Nat.lt_of_lt_of_le hlt (his1 a ha2)
      · refine List.pairwise_cons.2 ⟨?_, ih (t :: ts2) is2 hts his2⟩
        intro y _ hxt
        simp [isTok] at hxt

/-- Claim C10: BlockLine::forEach yields exactly the tokens and exactly
the insignificants, each once and in their own order; when both input
sequences are sorted by input begin the yielded sequence is nondecreasing
in input begin, and a token is yielded before an insignificant only when
its begin is strictly smaller, so an equal-begin tie yields the
insignificant first. -/
theorem forEachMergeSpec (ts : List Token) (is : List Insignificant)
    (hts : List.Pairwise (fun a b => (tokenInput a).b ≤ (tokenInput b).b) ts)
    (his : List.Pairwise (fun a b => (insigInput a).b ≤ (insigInput b).b) is) :
    (forEachList ts is).filterMap getTok = ts
      ∧ (forEachList ts is).filterMap getIns = is
      ∧ List.Pairwise (fun x y => itemBegin x ≤ itemBegin y) (forEachList ts is)
      ∧ List.Pairwise (fun x y => isTok x = true → isIns y = true → itemBegin x < itemBegin y)
          (forEachList ts is) :=
  ⟨forEachAux_tok _ ts is (Nat.le_refl _),
   forEachAux_ins _ ts is (Nat.le_refl _),
   forEachAux_pairwise_le _ ts is hts his,
   forEachAux_pairwise_strict _ ts is hts his⟩

/-- The tokens of the C10 witness: one identifier starting at byte 2. -/
def w10ts : List Token := [Token.identifierLiteral ⟨⟨2, 3⟩, 1, [], false⟩]

/-- The insignificants of the C10 witness: one whitespace separator also
starting at byte 2, an equal-begin tie with the token. -/
def w10is : List Insignificant := [Insignificant.whiteSpaceSeparator ⟨2, 3⟩]

/-- Witness for claim C10, at a concrete equal-begin tie. -/
theorem forEachMergeSpecWitness :
    (List.Pairwise (fun a b => (tokenInput a).b ≤ (tokenInput b).b) w10ts
        ∧ List.Pairwise (fun a b => (insigInput a).b ≤ (insigInput b).b) w10is)
      ∧ ((forEachList w10ts w10is).filterMap getTok = w10ts
          ∧ (forEachList w10ts w10is).filterMap getIns = w10is
          ∧ List.Pairwise (fun x y => itemBegin x ≤ itemBegin y) (forEachList w10ts w10is)
          ∧ List.Pairwise
              (fun x y => isTok x = true → isIns y = true → itemBegin x < itemBegin y)
              (forEachList w10ts w10is)) :=
  ⟨⟨List.pairwise_singleton _ _, List.pairwise_singleton _ _⟩,
    forEachMergeSpec w10ts w10is (List.pairwise_singleton _ _) (List.pairwise_singleton _ _)⟩

end REC
